import Mathlib

/-!
# Verification of the gemini-lite tool-orchestration core

A shallow embedding, in Lean 4, of the security- and protocol-relevant parts of
the `gemini-lite` repository:

* `src/validation.ts` — `validatePathWithinWorkspace` (workspace-boundary check),
  together with a model of Node's POSIX `path.resolve`;
* `src/core/liteTurn.ts` — `LiteTurn.run`, the turn state machine that turns a
  stream of provider chunks into normalized events;
* `src/tools/toolRegistry.ts` — `ToolRegistry.executeTool` dispatch;
* `src/tools/grep.ts`, `src/glob.ts` (GlobTool), `src/tools/listDirectory.ts` —
  the result-capping, truncation flags and cancellation behaviour of the
  read-only tools.

External effects (the file system, the network, the regular-expression engine,
the `glob` library) enter the model as explicit oracle parameters: a definition
receives the data such a call would have produced and the embedding reproduces
what the TypeScript code computes from it.  JavaScript numbers that the code
uses as counts are modelled as `Nat`; JavaScript string operations are modelled
on `String.data` (lists of characters).
-/

namespace GeminiLite

/-! ## Path validator (`src/validation.ts`)

`validatePathWithinWorkspace` calls Node's one-argument `path.resolve`, which
resolves a relative path against the process working directory and normalizes
the result (collapses `.`/`..`/`//`, strips a trailing separator).  The working
directory is an explicit `cwd` parameter of the model.
-/

/-- Split a character list at `/` the way JavaScript `"…".split('/')` does:
`""` gives `[""]`, a leading separator gives a leading empty segment. -/
def splitSlashChars : List Char → List (List Char)
  | [] => [[]]
  | c :: cs =>
    match splitSlashChars cs with
    | [] => [[]]
    | seg :: segs => if c = '/' then [] :: seg :: segs else (c :: seg) :: segs

/-- One step of Node's path normalization: `..` pops the last component
(dropped entirely when already at the root of an absolute path), anything else
is appended.  `""` and `"."` components are filtered out before this fold. -/
def resolveComps (acc : List String) (c : String) : List String :=
  if c == ".." then acc.dropLast else acc ++ [c]

/-- Node `path.posix.resolve` applied to an absolute path: split on `/`, drop
empty and `.` components, resolve `..`, and re-join under a leading `/`
(no trailing separator, as `resolve` produces). -/
def normalizeAbs (s : String) : String :=
  let comps := ((splitSlashChars s.data).map String.mk).filter (fun c => c != "" && c != ".")
  "/" ++ String.intercalate "/" (comps.foldl resolveComps [])

/-- Node `path.posix.isAbsolute`: the first character is `/`. -/
def posixIsAbsolute (p : String) : Bool := p.data.head? == some '/'

/-- Node's one-argument `path.resolve(p)`: an absolute `p` is normalized as is,
a relative `p` is resolved against the process working directory `cwd`
(assumed absolute, as `process.cwd()` always is). -/
def posixResolve (cwd p : String) : String :=
  if posixIsAbsolute p then normalizeAbs p else normalizeAbs (cwd ++ "/" ++ p)

/-- `absolutePath.replace(/\\/g, '/')`: the pattern and the replacement are
single characters, so the global replace is a character-wise map. -/
def replaceBackslashes (s : String) : String :=
  ⟨s.data.map (fun c => if c = '\\' then '/' else c)⟩

/-- JavaScript `s.startsWith(p)`. -/
def jsStartsWith (s p : String) : Bool := p.data.isPrefixOf s.data

/-- Return shape of `validatePathWithinWorkspace`. -/
structure ValidationResult where
  valid : Bool
  error : Option String := none
deriving Repr, DecidableEq

/-- `validatePathWithinWorkspace(filePath, workspaceDir)` from
`src/validation.ts` (lines 273–303).  `cwd` is the process working directory
used by the one-argument `resolve` calls.  The surrounding `try`/`catch` is not
modelled: `resolve` on strings does not throw. -/
def validatePathWithinWorkspace (cwd filePath workspaceDir : String) : ValidationResult :=
  let absoluteFilePath := posixResolve cwd filePath
  let absoluteWorkspace := posixResolve cwd workspaceDir
  let normalizedFilePath := replaceBackslashes absoluteFilePath
  let normalizedWorkspace := replaceBackslashes absoluteWorkspace
  if !(jsStartsWith normalizedFilePath (normalizedWorkspace ++ "/")) &&
      !(normalizedFilePath == normalizedWorkspace) then
    { valid := false
      error := some ("File path must be within workspace directory. Path: " ++ filePath ++
        ", Workspace: " ++ workspaceDir) }
  else
    { valid := true }

/-- The canonical form both sides of the comparison are put into: one-argument
`resolve`, then backslash normalization. -/
def canonPath (cwd p : String) : String := replaceBackslashes (posixResolve cwd p)

/-! ## Turn engine (`src/core/liteTurn.ts`)

`LiteTurn.run` is an async generator.  The model is a function from the data
the generator consumes — the outcome of the `chat.sendMessageStream` call and
the abort-signal history — to the list of events it yields.  The signal is a
function from the number of stream items already consumed to whether the
signal is raised at that moment (an `AbortSignal`, once raised, stays raised;
nothing in the model depends on that).  The `debugResponses` array is an
internal troubleshooting log (`getDebugResponses`) and is not part of the
observable state modelled here. -/

/-- JavaScript `s.trim()` (restricted to ASCII whitespace). -/
def jsTrim (s : String) : String :=
  ⟨((s.data.dropWhile Char.isWhitespace).reverse.dropWhile Char.isWhitespace).reverse⟩

/-- Split a character list at a separator character, JavaScript
`"…".split(sep)` style (used with `'\n'` by `parseThought`). -/
def splitCharOn (sep : Char) : List Char → List (List Char)
  | [] => [[]]
  | c :: cs =>
    match splitCharOn sep cs with
    | [] => [[]]
    | seg :: segs => if c = sep then [] :: seg :: segs else (c :: seg) :: segs

/-- One `Part` of a provider response chunk: whether the `thought` key is
present on the part, and its `text` field when present. -/
structure GPart where
  thoughtFlag : Bool := false
  text : Option String := none
deriving Repr, DecidableEq

/-- One `CitationSource`: optional `title` and `uri` fields. -/
structure GCitationSource where
  title : Option String := none
  uri : Option String := none
deriving Repr, DecidableEq

/-- One `FunctionCall` from the provider (`fnCall.name` may be absent). -/
structure GFunctionCall where
  name : Option String := none
deriving Repr, DecidableEq

/-- The fields of a `GenerateContentResponse` chunk that `LiteTurn.run` reads:
`candidates[0].content.parts`, `functionCalls()`,
`candidates[0].citationMetadata.citationSources`, `candidates[0].finishReason`
and `usageMetadata` (an opaque payload, modelled as an optional count). -/
structure GChunk where
  parts : Option (List GPart) := none
  functionCalls : List GFunctionCall := []
  citationSources : List GCitationSource := []
  finishReason : Option String := none
  usageMetadata : Option Nat := none
deriving Repr, DecidableEq

/-- A raw item of the transport stream (`StreamEvent` in `liteTurn.ts`);
`chunk none` models a falsy `value`, skipped by `if (!resp) continue`. -/
inductive GStreamEvent
  | retry
  | chunk (value : Option GChunk)
deriving Repr, DecidableEq

/-- An exception escaping transport consumption: the distinguished
`InvalidStreamError`, or any other error with its message and the optional
numeric `status` the handler extracts. -/
inductive GThrown
  | invalidStreamError (message : String)
  | jsError (message : String) (status : Option Int)
deriving Repr, DecidableEq

/-- The events `LiteTurn.run` yields (`ServerGeminiStreamEvent`). -/
inductive GEvent
  | content (value : String)
  | thought (text : String) (summary : String)
  | toolCallRequest (callId : String) (name : String)
  | citation (value : String)
  | retry
  | finished (reason : String) (usageMetadata : Option Nat)
  | error (message : String) (status : Option Int)
  | userCancelled
  | invalidStream
deriving Repr, DecidableEq

/-- The terminal event variants (Finished, Error, Cancelled, InvalidStream). -/
def isTerminal : GEvent → Bool
  | .finished _ _ => true
  | .error _ _ => true
  | .userCancelled => true
  | .invalidStream => true
  | _ => false

/-- The mutable per-turn state of a `LiteTurn` instance.  `pendingCitations`
models the JavaScript `Set`: insertion-ordered and duplicate-free.
`callCounter` replaces the `Date.now()`/`Math.random()` components of call
identifiers with a deterministic per-turn counter. -/
structure TurnState where
  pendingCitations : List String := []
  pendingToolCalls : List (String × String) := []
  callCounter : Nat := 0
  finishReason : Option String := none
deriving Repr, DecidableEq

/-- `parseThought` (lines 294–301): the summary is the first line that is
non-empty after trimming, or the first 100 characters when there is none. -/
def parseThoughtSummary (text : String) : String :=
  match ((splitCharOn '\n' text.data).map String.mk).filter (fun line => jsTrim line != "") with
  | [] => ⟨text.data.take 100⟩
  | line :: _ => line

/-- `getResponseText` (lines 262–274): concatenate the truthy `text` fields of
all parts; `null` (here `none`) when the chunk has no parts or the
concatenation is empty. -/
def getResponseText (c : GChunk) : Option String :=
  match c.parts with
  | none => none
  | some parts =>
    let text := parts.foldl (fun acc p =>
      match p.text with
      | some t => if t != "" then acc ++ t else acc
      | none => acc) ""
    if text != "" then some text else none

/-- `getCitations` (lines 279–289): keep sources with a defined `uri`; a
present `title` together with a truthy `uri` is rendered as `(title) uri`. -/
def formatCitation (cs : GCitationSource) : Option String :=
  match cs.uri with
  | none => none
  | some uri =>
    match cs.title with
    | some title => if uri != "" then some ("(" ++ title ++ ") " ++ uri) else some uri
    | none => some uri

/-- All formatted citations of one chunk, in source order. -/
def getCitations (c : GChunk) : List String := c.citationSources.filterMap formatCitation

/-- `Set.add`: append unless already present. -/
def addCitation (set : List String) (s : String) : List String :=
  if set.contains s then set else set ++ [s]

/-- Collect one chunk's citations into the pending set. -/
def addCitations (set : List String) (l : List String) : List String :=
  l.foldl addCitation set

/-- Lexicographic comparison of character lists by code point (the JavaScript
default sort comparator, which compares code units; the strings involved here
are within the Basic Multilingual Plane, where the two coincide). -/
def lexLeb : List Char → List Char → Bool
  | [], _ => true
  | _ :: _, [] => false
  | a :: as, b :: bs =>
    if a.val.toNat < b.val.toNat then true
    else if b.val.toNat < a.val.toNat then false
    else lexLeb as bs

/-- Lexicographic string comparison, the order of JavaScript `sort()`. -/
def strLeb (a b : String) : Bool := lexLeb a.data b.data

/-- JavaScript `[...set].sort()`: the elements in lexicographic order (the
elements are pairwise distinct, so any correct sort is the JavaScript one). -/
def sortStrings (l : List String) : List String :=
  List.insertionSort (fun a b => strLeb a b = true) l

/-- The payload of the Citation event:
`` `Citations:\n${[...this.pendingCitations].sort().join('\n')}` ``. -/
def citationPayload (set : List String) : String :=
  "Citations:\n" ++ String.intercalate "\n" (sortStrings set)

/-- Call identifier `` `${fnCall.name}-${Date.now()}-${random}` ``, with the
nondeterministic components replaced by the per-turn counter.  A missing name
renders as the string `undefined`, as the template literal does. -/
def mkCallId (rawName : String) (k : Nat) : String := rawName ++ "-" ++ toString k

/-- Whether a chunk's first part carries the `thought` key
(`thoughtPart && 'thought' in thoughtPart`, lines 150–151). -/
def isThoughtChunk (c : GChunk) : Bool :=
  match c.parts with
  | some (p :: _) => p.thoughtFlag
  | _ => false

/-- The text handed to `parseThought` for a thought chunk
(`thoughtPart.text ?? ''`). -/
def firstPartText (c : GChunk) : String :=
  match c.parts with
  | some (p :: _) => p.text.getD ""
  | _ => ""

/-- `handlePendingFunctionCall` applied to each function call of a chunk, in
order (lines 167–173 and 239–257): build the call id, push onto
`pendingToolCalls`, emit one ToolCallRequest event per call. -/
def processFunctionCalls (st : TurnState) : List GFunctionCall → List GEvent × TurnState
  | [] => ([], st)
  | fc :: rest =>
    let rawName := fc.name.getD "undefined"
    let name :=
      match fc.name with
      | some n => if n != "" then n else "undefined_tool_name"
      | none => "undefined_tool_name"
    let callId := mkCallId rawName st.callCounter
    let st' : TurnState :=
      { st with pendingToolCalls := st.pendingToolCalls ++ [(callId, name)]
                callCounter := st.callCounter + 1 }
    let r := processFunctionCalls st' rest
    (GEvent.toolCallRequest callId name :: r.1, r.2)

/-- The Content events of one chunk (at most one, per line 163). -/
def contentEventsOf (c : GChunk) : List GEvent :=
  match getResponseText c with
  | some t => [GEvent.content t]
  | none => []

/-- The pending-citation set after collecting one chunk's citations
(line 176–178; the function-call handling does not touch the set). -/
def pendingAfter (st : TurnState) (c : GChunk) : List String :=
  addCitations (processFunctionCalls st c.functionCalls).2.pendingCitations (getCitations c)

/-- The non-thought processing of one chunk (lines 160–200): Content event for
the concatenated text, ToolCallRequest events, citation collection, and — when
the chunk carries a finish reason — the Citation flush (when the pending set
is non-empty) immediately followed by Finished.  The two flush branches are
written out.  The loop does not return after Finished, so processing continues
with the next chunk. -/
def processChunkMain (st : TurnState) (c : GChunk) : List GEvent × TurnState :=
  match c.finishReason with
  | some r =>
    if (pendingAfter st c).length > 0 then
      (contentEventsOf c ++ (processFunctionCalls st c.functionCalls).1 ++
        [GEvent.citation (citationPayload (pendingAfter st c))] ++
        [GEvent.finished r c.usageMetadata],
       { (processFunctionCalls st c.functionCalls).2 with
          pendingCitations := [], finishReason := some r })
    else
      (contentEventsOf c ++ (processFunctionCalls st c.functionCalls).1 ++
        [GEvent.finished r c.usageMetadata],
       { (processFunctionCalls st c.functionCalls).2 with
          pendingCitations := pendingAfter st c, finishReason := some r })
  | none =>
    (contentEventsOf c ++ (processFunctionCalls st c.functionCalls).1,
     { (processFunctionCalls st c.functionCalls).2 with
        pendingCitations := pendingAfter st c })

/-- Processing of one chunk (lines 149–200): a chunk whose first part carries
the `thought` key yields a single Thought event and `continue`s — text in
other parts, function calls, citations and a finish reason on the same chunk
are not processed. -/
def processChunk (st : TurnState) (c : GChunk) : List GEvent × TurnState :=
  if isThoughtChunk c then
    ([GEvent.thought (firstPartText c) (parseThoughtSummary (firstPartText c))], st)
  else
    processChunkMain st c

/-- The outcome of the `for await` loop: the events yielded, the final turn
state, and whether the loop ran to the end of the stream (`false` after the
early `return` on cancellation). -/
structure LoopOut where
  events : List GEvent
  state : TurnState
  completed : Bool
deriving Repr, DecidableEq

/-- The `for await` loop of `run` (lines 130–201).  `i` counts the stream
items consumed so far; the signal is checked at the top of each iteration. -/
def runLoop (signal : Nat → Bool) : List GStreamEvent → TurnState → Nat → LoopOut
  | [], st, _ => ⟨[], st, true⟩
  | ev :: rest, st, i =>
    if signal i then ⟨[GEvent.userCancelled], st, false⟩
    else
      match ev with
      | .retry =>
        let r := runLoop signal rest st (i + 1)
        ⟨GEvent.retry :: r.events, r.state, r.completed⟩
      | .chunk none => runLoop signal rest st (i + 1)
      | .chunk (some c) =>
        let p := processChunk st c
        let r := runLoop signal rest p.2 (i + 1)
        ⟨p.1 ++ r.events, r.state, r.completed⟩

/-- The `catch` handler (lines 202–232): Cancelled when the signal is raised,
InvalidStream for `InvalidStreamError`, otherwise a structured Error. -/
def handleThrown (aborted : Bool) (t : GThrown) : GEvent :=
  if aborted then GEvent.userCancelled
  else
    match t with
    | .invalidStreamError _ => GEvent.invalidStream
    | .jsError msg status => GEvent.error msg status

/-- What the transport hands the loop: the stream items it yields, and an
optional exception it raises after them (only observed when the loop consumes
the whole stream). -/
structure StreamResult where
  events : List GStreamEvent
  thrown : Option GThrown := none

/-- The observable outcome of one `run` call.  `transportCalled` records that
`chat.sendMessageStream` was invoked: the generator body calls it
unconditionally before any signal check (line 119). -/
structure RunOutput where
  events : List GEvent
  finalState : TurnState
  transportCalled : Bool

/-- `LiteTurn.run` (lines 113–233).  The transport outcome is `Except.error t`
when `sendMessageStream` itself throws, otherwise the stream it returned.
A stream exception is handled by the `catch` block with the signal observed
after all items were consumed. -/
def LiteTurnRun (signal : Nat → Bool) (transport : Except GThrown StreamResult) : RunOutput :=
  match transport with
  | .error t =>
    { events := [handleThrown (signal 0) t], finalState := {}, transportCalled := true }
  | .ok stream =>
    let r := runLoop signal stream.events {} 0
    match stream.thrown, r.completed with
    | some t, true =>
      { events := r.events ++ [handleThrown (signal stream.events.length) t]
        finalState := r.state, transportCalled := true }
    | _, _ => { events := r.events, finalState := r.state, transportCalled := true }

/-- Whether a stream item will make the loop emit a Finished event when it is
processed: a truthy chunk with a finish reason whose first part is not
thought-flagged. -/
def yieldsFinish : GStreamEvent → Bool
  | .chunk (some c) => !isThoughtChunk c && c.finishReason.isSome
  | _ => false

/-- The citations a stream item contributes to the pending set (a thought
chunk contributes none: its branch `continue`s before collection). -/
def chunkCollectedCitations : GStreamEvent → List String
  | .chunk (some c) => if isThoughtChunk c then [] else getCitations c
  | _ => []

/-! ## Tool registry (`src/tools/toolRegistry.ts`)

The registry holds a `Map` from tool name to implementation.  For the dispatch
claim only the lookup matters, so the implementations are an arbitrary payload
type: a successful dispatch returns the looked-up implementation (to which
`executeTool` delegates with the caller's params and signal). -/

/-- A value thrown by the TypeScript code.  `plainError` is a bare
`new Error(message)`; the other constructors are the `GeminiLiteError`
subclasses from `src/errors.ts` that the tools throw (payloads beyond the
identifying field are elided). -/
inductive ThrownError
  | plainError (message : String)
  | typeError (message : String)
  | invalidArgumentError (argumentName : String)
  | toolExecutionError (toolName : String)
deriving Repr, DecidableEq

/-- `Map.get`: the value of the first (only) entry with the given key. -/
def jsMapGet {α : Type} (m : List (String × α)) (k : String) : Option α :=
  (m.find? (fun e => e.1 == k)).map (·.2)

/-- `ToolRegistry.executeTool` (lines 91–102): look the tool up; when absent,
`throw new Error(`"`Unknown tool: ${name}`"`)` — a bare `Error`, not an
`UnknownToolError` and not a returned failure result; otherwise delegate. -/
def executeTool {α : Type} (tools : List (String × α)) (name : String) :
    Except ThrownError α :=
  match jsMapGet tools name with
  | none => .error (.plainError ("Unknown tool: " ++ name))
  | some tool => .ok tool

/-- The registration order of `registerDefaultTools` (tool names are the map
keys). -/
def defaultToolNames : List String := ["read_file", "glob", "grep", "list_directory"]

/-! ## Shared tool plumbing (`src/tools/toolBase.ts`) -/

/-- `ToolConfig`: `ignorePatterns` is an optional field. -/
structure ToolConfig where
  workspaceDir : String
  respectGitignore : Option Bool := none
  ignorePatterns : Option (List String) := none
deriving Repr, DecidableEq

/-- A JSON-like value from the model's argument mapping
(`Record<string, unknown>`).  Numbers are restricted to integers, the only way
the tools use them (counts). -/
inductive JsVal
  | str (s : String)
  | num (n : Int)
  | boolean (b : Bool)
  | arr (l : List JsVal)
  | nullv
deriving Repr

mutual

/-- Structural equality of JSON-like values. -/
def JsVal.beq : JsVal → JsVal → Bool
  | .str a, .str b => a == b
  | .num a, .num b => a == b
  | .boolean a, .boolean b => a == b
  | .arr a, .arr b => JsVal.listBeq a b
  | .nullv, .nullv => true
  | _, _ => false

/-- Structural equality of lists of JSON-like values. -/
def JsVal.listBeq : List JsVal → List JsVal → Bool
  | [], [] => true
  | x :: xs, y :: ys => JsVal.beq x y && JsVal.listBeq xs ys
  | _, _ => false

end

instance : BEq JsVal := ⟨JsVal.beq⟩

/-- Property lookup on the params object. -/
def lookupParam (params : List (String × JsVal)) (k : String) : Option JsVal :=
  jsMapGet params k

/-- The `pattern` validation shared by GrepTool and GlobTool:
`typeof pattern !== 'string' || !pattern.trim()` throws
`InvalidArgumentError('pattern', …)`. -/
def getPattern (params : List (String × JsVal)) : Except ThrownError String :=
  match lookupParam params "pattern" with
  | some (.str s) => if jsTrim s != "" then .ok s else .error (.invalidArgumentError "pattern")
  | _ => .error (.invalidArgumentError "pattern")

/-- `typeof params.maxResults === 'number' && params.maxResults > 0 ?
params.maxResults : dflt` (the number is assumed integral in this model). -/
def parseMaxResults (params : List (String × JsVal)) (dflt : Nat) : Nat :=
  match lookupParam params "maxResults" with
  | some (.num n) => if 0 < n then n.toNat else dflt
  | _ => dflt

/-- The `[...this.config.ignorePatterns]` spread: spreading `undefined`
throws `TypeError: … is not iterable`. -/
def spreadIgnorePatterns (cfg : ToolConfig) : Except ThrownError (List String) :=
  match cfg.ignorePatterns with
  | some l => .ok l
  | none => .error (.typeError "config.ignorePatterns is not iterable")

/-! ## GrepTool (`src/tools/grep.ts`)

The regular-expression engine and the `glob` library are external: the model
takes a `compile` oracle (for `new RegExp(pattern, flags)`, `none` when the
constructor throws) producing a matcher (for `regex.exec(line)`, returning the
match index and length — the code resets `lastIndex` so each line is matched
afresh), and the glob outcome as a list of files, each with the result of its
`readFile` (`none` when reading threw and the file is skipped). -/

/-- One recorded grep match (the `GrepMatch` interface). -/
structure GrepMatch where
  file : String
  line : Nat
  content : String
  matchStart : Nat
  matchEnd : Nat
deriving Repr, DecidableEq

/-- A file the glob produced: its (relative) name, and its content as lines
(`content.split('\n')`), or `none` when `readFile` threw. -/
structure GrepFile where
  name : String
  lines : Option (List String) := none
deriving Repr, DecidableEq

/-- The inner line loop (lines 172–189):
`for (let i = 0; i < lines.length && matches.length < maxResults; i++)`,
recording one match per matching line. -/
def grepLines (matcher : String → Option (Nat × Nat)) (file : String) (maxResults : Nat) :
    List String → Nat → List GrepMatch → List GrepMatch
  | [], _, acc => acc
  | line :: rest, i, acc =>
    if acc.length ≥ maxResults then acc
    else
      match matcher line with
      | some (idx, len) =>
        grepLines matcher file maxResults rest (i + 1)
          (acc ++ [{ file := file, line := i + 1, content := jsTrim line,
                     matchStart := idx, matchEnd := idx + len }])
      | none => grepLines matcher file maxResults rest (i + 1) acc

/-- The accumulators of the file loop. -/
structure GrepScanState where
  «matches» : List GrepMatch := []
  filesSearched : Nat := 0
  filesWithMatches : Nat := 0
deriving Repr, DecidableEq

/-- The outer file loop (lines 160–198): per file, break on an already-raised
signal, break when the cap is reached, skip unreadable files, otherwise count
the file as searched, scan its lines, and count it when it contributed a
match.  `i` is the iteration index at which the signal is sampled. -/
def grepFilesLoop (matcher : String → Option (Nat × Nat)) (signal : Nat → Bool)
    (maxResults : Nat) : List GrepFile → Nat → GrepScanState → GrepScanState
  | [], _, st => st
  | f :: rest, i, st =>
    if signal i then st
    else if st.«matches».length ≥ maxResults then st
    else
      match f.lines with
      | none => grepFilesLoop matcher signal maxResults rest (i + 1) st
      | some lines =>
        let newMatches := grepLines matcher f.name maxResults lines 0 st.matches
        let st' : GrepScanState :=
          { «matches» := newMatches
            filesSearched := st.filesSearched + 1
            filesWithMatches :=
              st.filesWithMatches + (if st.«matches».length < newMatches.length then 1 else 0) }
        grepFilesLoop matcher signal maxResults rest (i + 1) st'

/-- The success result GrepTool builds (lines 209–221); the human-readable
`formatResult` text is not modelled, the structured metadata is. -/
structure GrepResult where
  success : Bool
  matchCount : Nat
  truncated : Bool
  filesSearched : Nat
  filesWithMatches : Nat
  «matches» : List GrepMatch
deriving Repr, DecidableEq

/-- Everything `GrepTool.execute` does before its only file-system access (the
`glob` call): validate the pattern, parse the options, build the regex
(`none` from the oracle models the constructor throwing, turned into
`InvalidArgumentError`), and spread the configured ignore patterns. -/
def grepPrepare (cfg : ToolConfig)
    (compile : String → Bool → Option (String → Option (Nat × Nat)))
    (params : List (String × JsVal)) :
    Except ThrownError ((String → Option (Nat × Nat)) × Nat × List String) :=
  match getPattern params with
  | .error e => .error e
  | .ok pattern =>
    let _filePattern :=
      match lookupParam params "filePattern" with
      | some (.str s) => if jsTrim s != "" then s else "**/*"
      | _ => "**/*"
    let caseSensitive := lookupParam params "caseSensitive" == some (.boolean true)
    let _contextLines :=
      match lookupParam params "contextLines" with
      | some (.num n) => if 0 ≤ n then min n.toNat 5 else 0
      | _ => 0
    match compile pattern caseSensitive with
    | none => .error (.invalidArgumentError "pattern")
    | some regex =>
      match spreadIgnorePatterns cfg with
      | .error e => .error e
      | .ok baseIgnores =>
        .ok (regex, parseMaxResults params 50, baseIgnores ++
          ["**/node_modules/**", "**/.git/**", "**/dist/**", "**/build/**", "**/.next/**",
           "**/*.min.js", "**/*.map", "**/*.lock", "**/package-lock.json", "**/yarn.lock"])

/-- The `catch` wrapper (lines 222–232): an `InvalidArgumentError` is
re-thrown as is, everything else is wrapped in a `ToolExecutionError`. -/
def wrapToolCatch {α : Type} (toolName : String) :
    Except ThrownError α → Except ThrownError α
  | .error (.invalidArgumentError a) => .error (.invalidArgumentError a)
  | .error _ => .error (.toolExecutionError toolName)
  | .ok r => .ok r

/-- The success result GrepTool builds from the final scan state (lines
209–221): the metadata carries the match count and
`truncated: matches.length >= maxResults`. -/
def grepSuccessResult (st : GrepScanState) (maxResults : Nat) : GrepResult :=
  { success := true
    matchCount := st.«matches».length
    truncated := st.«matches».length ≥ maxResults
    filesSearched := st.filesSearched
    filesWithMatches := st.filesWithMatches
    «matches» := st.«matches» }

/-- `GrepTool.execute` (lines 90–233).  `fsFiles` is the outcome of the `glob`
call (the only file-system access), reached only when `grepPrepare`
succeeded. -/
def grepExecute (cfg : ToolConfig)
    (compile : String → Bool → Option (String → Option (Nat × Nat)))
    (fsFiles : List GrepFile) (signal : Nat → Bool)
    (params : List (String × JsVal)) : Except ThrownError GrepResult :=
  wrapToolCatch "grep"
    (match grepPrepare cfg compile params with
     | .error e => .error e
     | .ok (regex, maxResults, _allIgnorePatterns) =>
       .ok (grepSuccessResult (grepFilesLoop regex signal maxResults fsFiles 0 {}) maxResults))

/-- The number of matching lines one readable file contributes (one match per
line, as the code records; unreadable files are skipped). -/
def grepFileAvailable (matcher : String → Option (Nat × Nat)) (f : GrepFile) : Nat :=
  match f.lines with
  | some ls => (ls.filter (fun l => (matcher l).isSome)).length
  | none => 0

/-- The number of matching lines available in the globbed corpus. -/
def grepAvailable (matcher : String → Option (Nat × Nat)) (files : List GrepFile) : Nat :=
  (files.map (grepFileAvailable matcher)).sum

/-! ## GlobTool (`src/glob.ts`, bundled after `src/config.ts`) -/

/-- The success result GlobTool builds (lines 472–479). -/
structure GlobResult where
  success : Bool
  matchCount : Nat
  returnedCount : Nat
  truncated : Bool
  «matches» : List String
deriving Repr, DecidableEq

/-- Everything `GlobTool.execute` does before its only file-system access (the
`glob` call): validate the pattern, parse `ignore` and `maxResults`, and
spread the configured ignore patterns. -/
def globPrepare (cfg : ToolConfig) (params : List (String × JsVal)) :
    Except ThrownError (Nat × List String) :=
  match getPattern params with
  | .error e => .error e
  | .ok _pattern =>
    let ignoreParams :=
      match lookupParam params "ignore" with
      | some (.arr l) => l.filterMap (fun v => match v with | .str s => some s | _ => none)
      | _ => []
    match spreadIgnorePatterns cfg with
    | .error e => .error e
    | .ok baseIgnores =>
      .ok (parseMaxResults params 100, baseIgnores ++ ignoreParams ++
        ["**/node_modules/**", "**/.git/**", "**/dist/**", "**/build/**", "**/.next/**"])

/-- `GlobTool.execute` (lines 419–491).  `globMatches` is the list the `glob`
library returned; the result keeps `matches.slice(0, maxResults)` and flags
`truncated` when more were available. -/
def globExecute (cfg : ToolConfig) (globMatches : List String)
    (params : List (String × JsVal)) : Except ThrownError GlobResult :=
  wrapToolCatch "glob"
    (match globPrepare cfg params with
     | .error e => .error e
     | .ok (maxResults, _allIgnorePatterns) =>
       .ok { success := true
             matchCount := globMatches.length
             returnedCount := (globMatches.take maxResults).length
             truncated := decide (globMatches.length > maxResults)
             «matches» := globMatches.take maxResults })

/-! ## ListDirectoryTool (`src/tools/listDirectory.ts`), non-recursive path -/

/-- One `readdir(…, { withFileTypes: true })` entry: name, whether it is a
directory, and the `stat` size for files (`none` when `stat` threw). -/
structure DirItem where
  name : String
  isDirectory : Bool
  statSize : Option Nat := none
deriving Repr, DecidableEq

/-- One listed entry (the `DirectoryEntry` interface). -/
structure DirEntry where
  name : String
  type : String
  size : Option Nat := none
deriving Repr, DecidableEq

/-- The hard-coded `shouldIgnore` list (lines 298–313). -/
def commonIgnore : List String :=
  ["node_modules", ".git", "dist", "build", ".next", "coverage", ".nyc_output",
   "__pycache__", ".pytest_cache", ".DS_Store"]

/-- `shouldIgnore(name)`. -/
def shouldIgnore (name : String) : Bool := commonIgnore.contains name

/-- The collection loop of `listSingle` (lines 190–220): break on an
already-raised signal, skip hidden names unless requested, skip ignored names,
record name/type and—for files—the stat size. -/
def listSingleCollect (showHidden : Bool) (signal : Nat → Bool) :
    List DirItem → Nat → List DirEntry
  | [], _ => []
  | item :: rest, i =>
    if signal i then []
    else if !showHidden && jsStartsWith item.name "." then
      listSingleCollect showHidden signal rest (i + 1)
    else if shouldIgnore item.name then
      listSingleCollect showHidden signal rest (i + 1)
    else
      { name := item.name
        type := if item.isDirectory then "directory" else "file"
        size := if item.isDirectory then none else item.statSize } ::
        listSingleCollect showHidden signal rest (i + 1)

/-- The comparator of the final sort (lines 223–228): directories first, then
names in ascending order (`localeCompare` modelled as the string order; the
names within one directory are distinct, so the comparator never ties). -/
def dirEntryBefore (a b : DirEntry) : Bool :=
  if a.type == b.type then strLeb a.name b.name else a.type == "directory"

/-- `listSingle` (lines 181–231): collect, then sort. -/
def listSingle (items : List DirItem) (showHidden : Bool) (signal : Nat → Bool) :
    List DirEntry :=
  List.insertionSort (fun a b => dirEntryBefore a b = true)
    (listSingleCollect showHidden signal items 0)

/-- The result `execute` wraps a non-recursive listing into (lines 154–163):
`createSuccessResult` — the success flag is unconditionally `true`. -/
structure ListDirResult where
  success : Bool
  entryCount : Nat
  entries : List DirEntry
deriving Repr, DecidableEq

/-- The tail of `ListDirectoryTool.execute` on the non-recursive path, after
path validation and the directory check succeeded. -/
def listDirectoryExecuteSingle (items : List DirItem) (showHidden : Bool)
    (signal : Nat → Bool) : ListDirResult :=
  let entries := listSingle items showHidden signal
  { success := true, entryCount := entries.length, entries := entries }

/-! ## ReadFileTool (`src/tools/toolBase.ts` bundle, lines 184–242)

Only the cancellation check matters for the claims: after validation and
before the read, `if (signal?.aborted) return createErrorResult('Operation
cancelled')`. -/

/-- Outcome of `ReadFileTool.execute` after validation passed: the tool checks
the signal once, before the read; `fileContent` is the oracle for the
`readFile` call. -/
structure ReadFileResult where
  success : Bool
  error : Option String := none
  content : Option String := none
deriving Repr, DecidableEq

/-- The cancellation check and read of `ReadFileTool.execute` (lines
209–227). -/
def readFileAfterValidation (aborted : Bool) (fileContent : String) : ReadFileResult :=
  if aborted then { success := false, error := some "Operation cancelled" }
  else { success := true, content := some fileContent }

/-- Whether a tool call rejected (its promise failed with a thrown value). -/
def isThrown {α : Type} : Except ThrownError α → Bool
  | .error _ => true
  | .ok _ => false

/-- Whether an event is a Citation event. -/
def isCitationEvent : GEvent → Bool
  | .citation _ => true
  | _ => false

/-! ### Concrete fixtures used by counterexamples and witnesses -/

/-- A matcher for the literal pattern `TODO` (what
`new RegExp("TODO", "gi").exec` computes on these lines). -/
def todoMatcher : String → Option (Nat × Nat) :=
  fun l => if l = "TODO" then some (0, 4) else none

/-- A regex-construction oracle that knows the pattern `TODO`. -/
def todoCompile : String → Bool → Option (String → Option (Nat × Nat)) :=
  fun p _ => if p = "TODO" then some todoMatcher else none

/-- A tool configuration whose optional `ignorePatterns` field is present. -/
def fixtureConfig : ToolConfig := { workspaceDir := "/repo", ignorePatterns := some [] }

/-- Two files, each with one matching line. -/
def fixtureFiles : List GrepFile :=
  [{ name := "a.txt", lines := some ["TODO"] }, { name := "b.txt", lines := some ["TODO"] }]

/-- Three files, each with one matching line (a corpus holding more matches
than a cap of 2). -/
def fixtureThreeFiles : List GrepFile :=
  [{ name := "a.txt", lines := some ["TODO"] },
   { name := "b.txt", lines := some ["TODO"] },
   { name := "c.txt", lines := some ["TODO"] }]

/-- The first part of this chunk is thought-flagged; the chunk also carries
text in another part, a function call, a citation source and a finish
reason. -/
def fixtureThoughtChunk : GChunk :=
  { parts := some [{ thoughtFlag := true, text := some "  \nFirst line\nmore" },
                   { text := some "dropped" }]
    functionCalls := [{ name := some "grep" }]
    citationSources := [{ uri := some "https://example.com" }]
    finishReason := some "STOP" }

/-- A turn state with one citation already pending. -/
def fixtureCitationState : TurnState := { pendingCitations := ["https://b"] }

/-- A finish chunk that contributes one new citation and one duplicate. -/
def fixtureCitationChunk : GChunk :=
  { parts := some [{ text := some "done" }]
    citationSources := [{ title := some "A", uri := some "https://a" },
                        { uri := some "https://b" }]
    finishReason := some "STOP" }

/-- A stream whose chunks carry no citation sources. -/
def fixtureCleanStream : StreamResult :=
  ⟨[GStreamEvent.chunk (some { parts := some [{ text := some "x" }]
                               finishReason := some "STOP" })], none⟩

/-- Directory items used by the cancellation counterexample. -/
def fixtureItems : List DirItem :=
  [{ name := "a.txt", isDirectory := false, statSize := some 3 },
   { name := "b.txt", isDirectory := false, statSize := some 4 }]

end GeminiLite

namespace GeminiLite

/-! ## Supporting lemmas -/

theorem isPrefixOf_iff_exists_append (l₁ l₂ : List Char) :
    l₁.isPrefixOf l₂ = true ↔ ∃ t, l₂ = l₁ ++ t := by
  induction l₁ generalizing l₂ with
  | nil => simp [List.isPrefixOf]
  | cons a as ih =>
    cases l₂ with
    | nil => simp [List.isPrefixOf]
    | cons b bs =>
      simp only [List.isPrefixOf, Bool.and_eq_true, beq_iff_eq, ih, List.cons_append,
        List.cons.injEq]
      constructor
      · rintro ⟨rfl, t, rfl⟩; exact ⟨t, rfl, rfl⟩
      · rintro ⟨t, rfl, rfl⟩; exact ⟨rfl, t, rfl⟩

theorem jsStartsWith_iff (s p : String) :
    jsStartsWith s p = true ↔ ∃ t, s = p ++ t := by
  unfold jsStartsWith
  rw [isPrefixOf_iff_exists_append]
  constructor
  · rintro ⟨t, ht⟩
    refine ⟨⟨t⟩, String.ext ?_⟩
    rw [String.data_append]
    exact ht
  · rintro ⟨t, rfl⟩
    exact ⟨t.data, by rw [String.data_append]⟩

theorem validate_valid_eq (cwd filePath workspaceDir : String) :
    (validatePathWithinWorkspace cwd filePath workspaceDir).valid =
      (jsStartsWith (canonPath cwd filePath) (canonPath cwd workspaceDir ++ "/") ||
        canonPath cwd filePath == canonPath cwd workspaceDir) := by
  simp only [validatePathWithinWorkspace, canonPath]
  split
  · next h =>
    simp only [Bool.and_eq_true, Bool.not_eq_true'] at h
    simp [h.1, h.2]
  · next h =>
    simp only [Bool.and_eq_true, Bool.not_eq_true', not_and] at h
    rcases hb : jsStartsWith (replaceBackslashes (posixResolve cwd filePath))
        (replaceBackslashes (posixResolve cwd workspaceDir) ++ "/") with _ | _
    · simp [h hb]
    · simp

theorem posixResolve_of_abs (cwd p : String) (h : posixIsAbsolute p = true) :
    posixResolve cwd p = normalizeAbs p := by
  simp [posixResolve, h]

theorem posixResolve_of_rel (cwd p : String) (h : posixIsAbsolute p = false) :
    posixResolve cwd p = normalizeAbs (cwd ++ "/" ++ p) := by
  simp [posixResolve, h]

theorem posixIsAbsolute_append_left (a b : String) (h : posixIsAbsolute a = true) :
    posixIsAbsolute (a ++ b) = true := by
  unfold posixIsAbsolute at *
  rw [String.data_append]
  cases ha : a.data with
  | nil => rw [ha] at h; simp at h
  | cons c cs => rw [ha] at h; simp_all

theorem posixIsAbsolute_normalizeAbs (s : String) :
    posixIsAbsolute (normalizeAbs s) = true := by
  unfold normalizeAbs
  apply posixIsAbsolute_append_left
  rfl

/-! ## C1 -/

/-- **C1.** For every candidate path and workspace root (and any process
working directory), `validatePathWithinWorkspace` returns valid exactly when
the canonicalized candidate equals the canonicalized root or begins with the
canonicalized root followed by a path separator; `/repo/../etc/passwd` against
root `/repo` is invalid, `/repo/src/a.ts` against `/repo` is valid. -/
theorem c1_validate_valid_iff :
    (∀ cwd filePath workspaceDir,
      (validatePathWithinWorkspace cwd filePath workspaceDir).valid = true ↔
        (canonPath cwd filePath = canonPath cwd workspaceDir ∨
          ∃ rest, canonPath cwd filePath = canonPath cwd workspaceDir ++ "/" ++ rest)) ∧
    (∀ cwd, (validatePathWithinWorkspace cwd "/repo/src/a.ts" "/repo").valid = true) ∧
    (∀ cwd, (validatePathWithinWorkspace cwd "/repo/../etc/passwd" "/repo").valid = false) := by
  refine ⟨fun cwd filePath workspaceDir => ?_, fun cwd => ?_, fun cwd => ?_⟩
  · rw [validate_valid_eq]
    simp only [Bool.or_eq_true, beq_iff_eq, jsStartsWith_iff, String.append_assoc]
    exact or_comm
  · have e1 : posixResolve cwd "/repo/src/a.ts" = "/repo/src/a.ts" := by
      rw [posixResolve_of_abs _ _ (by decide)]; decide
    have e2 : posixResolve cwd "/repo" = "/repo" := by
      rw [posixResolve_of_abs _ _ (by decide)]; decide
    simp only [validatePathWithinWorkspace, e1, e2]
    decide
  · have e1 : posixResolve cwd "/repo/../etc/passwd" = "/etc/passwd" := by
      rw [posixResolve_of_abs _ _ (by decide)]; decide
    have e2 : posixResolve cwd "/repo" = "/repo" := by
      rw [posixResolve_of_abs _ _ (by decide)]; decide
    simp only [validatePathWithinWorkspace, e1, e2]
    decide

/-! ## C8 -/

/-- **C8 counterexample.** With working directory `/other`, the relative
candidate `src/a.ts` is rejected against root `/repo` while the corresponding
absolute candidate `/repo/src/a.ts` is accepted: the verdicts differ, because
the one-argument `resolve` resolves relative candidates against the process
working directory, not against the workspace root. -/
theorem c8_counterexample :
    (validatePathWithinWorkspace "/other" "src/a.ts" "/repo").valid = false ∧
    (validatePathWithinWorkspace "/other" "/repo/src/a.ts" "/repo").valid = true := by
  decide

/-- **C8 (amended).** When the process working directory is the canonical
workspace root, a relative candidate receives the same verdict as the
corresponding absolute candidate under that root (for an absolute root; the
absolute form's verdict does not depend on the working directory). -/
theorem c8_amended (cwd root rel : String) (hroot : posixIsAbsolute root = true)
    (hrel : posixIsAbsolute rel = false) :
    (validatePathWithinWorkspace (normalizeAbs root) rel root).valid =
      (validatePathWithinWorkspace cwd (normalizeAbs root ++ "/" ++ rel) root).valid := by
  have habs : posixIsAbsolute (normalizeAbs root ++ "/" ++ rel) = true := by
    apply posixIsAbsolute_append_left
    apply posixIsAbsolute_append_left
    exact posixIsAbsolute_normalizeAbs root
  simp only [validatePathWithinWorkspace,
    posixResolve_of_rel _ _ hrel, posixResolve_of_abs _ _ hroot,
    posixResolve_of_abs _ _ habs]
  split <;> rename_i h <;> simp [h]

/-- Witness for `c8_amended` at root `/repo`, candidate `src/a.ts`, working
directory `/x`. -/
theorem c8_amended_witness :
    (validatePathWithinWorkspace (normalizeAbs "/repo") "src/a.ts" "/repo").valid =
      (validatePathWithinWorkspace "/x" (normalizeAbs "/repo" ++ "/" ++ "src/a.ts") "/repo").valid :=
  c8_amended "/x" "/repo" "src/a.ts" (by decide) (by decide)

/-! ## C4 -/

/-- **C4 (code bug).** For a name absent from the registry, `executeTool`
throws a bare `Error('Unknown tool: …')` — an opaque thrown error, not the
typed failure result the specification promises (and not even the
`UnknownToolError` class that `src/errors.ts` defines for this case); a known
name is dispatched to its implementation. -/
theorem c4_unknown_tool_throws :
    executeTool (defaultToolNames.map (fun n => (n, n))) "nonexistent_tool" =
      Except.error (ThrownError.plainError "Unknown tool: nonexistent_tool") ∧
    executeTool (defaultToolNames.map (fun n => (n, n))) "grep" = Except.ok "grep" :=
  ⟨rfl, rfl⟩

/-! ## C3 -/

/-- **C3 counterexample.** With the cancellation signal already raised,
`run` still performs the transport call, and when the returned stream is empty
it yields no events at all — not the single `Cancelled` event the claim
requires, and the transport call is attempted. -/
theorem c3_counterexample :
    (LiteTurnRun (fun _ => true) (.ok ⟨[], none⟩)).events = [] ∧
    (LiteTurnRun (fun _ => true) (.ok ⟨[], none⟩)).transportCalled = true :=
  ⟨rfl, rfl⟩

/-- **C3 (amended).** If the cancellation signal is already raised when `run`
is invoked, the transport call is still attempted; afterwards the run yields
exactly one event, `Cancelled` — unless the returned stream is empty and
completes cleanly, in which case the run yields no events. -/
theorem c3_amended (transport : Except GThrown StreamResult) :
    (LiteTurnRun (fun _ => true) transport).transportCalled = true ∧
    (LiteTurnRun (fun _ => true) transport).events =
      (match transport with
        | .error _ => [GEvent.userCancelled]
        | .ok s => if s.events.isEmpty && s.thrown.isNone then [] else [GEvent.userCancelled]) := by
  obtain t | ⟨evs, th⟩ := transport
  · exact ⟨rfl, rfl⟩
  · cases evs with
    | nil => cases th with
      | none => exact ⟨rfl, rfl⟩
      | some t => exact ⟨rfl, rfl⟩
    | cons e rest => cases th with
      | none => exact ⟨rfl, rfl⟩
      | some t => exact ⟨rfl, rfl⟩

/-! ## C2 -/

theorem processFunctionCalls_mem (fcs : List GFunctionCall) (st : TurnState) :
    ∀ e ∈ (processFunctionCalls st fcs).1, ∃ id nm, e = GEvent.toolCallRequest id nm := by
  induction fcs generalizing st with
  | nil => simp [processFunctionCalls]
  | cons fc rest ih =>
    intro e he
    simp only [processFunctionCalls, List.mem_cons] at he
    rcases he with rfl | he
    · exact ⟨_, _, rfl⟩
    · exact ih _ e he

theorem mem_contentEventsOf (c : GChunk) :
    ∀ e ∈ contentEventsOf c, ∃ t, e = GEvent.content t := by
  intro e he
  unfold contentEventsOf at he
  cases hg : getResponseText c <;> rw [hg] at he <;> simp at he
  exact ⟨_, he⟩

theorem mem_processChunkMain_no_finish (st : TurnState) (c : GChunk)
    (h : c.finishReason = none) :
    ∀ e ∈ (processChunkMain st c).1, isTerminal e = false ∧ isCitationEvent e = false := by
  intro e he
  simp only [processChunkMain, h, List.mem_append] at he
  rcases he with he | he
  · obtain ⟨t, rfl⟩ := mem_contentEventsOf c e he
    exact ⟨rfl, rfl⟩
  · obtain ⟨id, nm, rfl⟩ := processFunctionCalls_mem _ _ e he
    exact ⟨rfl, rfl⟩

theorem processChunkMain_finish_shape (st : TurnState) (c : GChunk) (r : String)
    (h : c.finishReason = some r) :
    ∃ pre, (processChunkMain st c).1 = pre ++ [GEvent.finished r c.usageMetadata] ∧
      ∀ e ∈ pre, isTerminal e = false := by
  simp only [processChunkMain, h]
  split
  · refine ⟨_, rfl, ?_⟩
    intro e he
    simp only [List.mem_append] at he
    rcases he with (he | he) | he
    · obtain ⟨t, rfl⟩ := mem_contentEventsOf c e he
      rfl
    · obtain ⟨id, nm, rfl⟩ := processFunctionCalls_mem _ _ e he
      rfl
    · rcases List.mem_singleton.mp he with rfl
      rfl
  · refine ⟨_, rfl, ?_⟩
    intro e he
    simp only [List.mem_append] at he
    rcases he with he | he
    · obtain ⟨t, rfl⟩ := mem_contentEventsOf c e he
      rfl
    · obtain ⟨id, nm, rfl⟩ := processFunctionCalls_mem _ _ e he
      rfl

theorem mem_processChunk_no_finish (st : TurnState) (c : GChunk)
    (h : yieldsFinish (GStreamEvent.chunk (some c)) = false) :
    ∀ e ∈ (processChunk st c).1, isTerminal e = false := by
  intro e he
  simp only [yieldsFinish, Bool.and_eq_false_iff, Bool.not_eq_false] at h
  unfold processChunk at he
  rcases ht : isThoughtChunk c with _ | _ <;> rw [ht] at he
  · rcases h with h | h
    · rw [ht] at h; cases h
    · have hn : c.finishReason = none := by
        cases hf : c.finishReason
        · rfl
        · rw [hf] at h; cases h
      exact (mem_processChunkMain_no_finish st c hn e he).1
  · simp at he
    subst he; rfl

theorem runLoop_finish_last (c : GChunk) (r : String) (hth : isThoughtChunk c = false)
    (hfin : c.finishReason = some r) :
    ∀ (init : List GStreamEvent) (st : TurnState) (i : Nat),
      (∀ ev ∈ init, yieldsFinish ev = false) →
      ∃ pre,
        (runLoop (fun _ => false) (init ++ [GStreamEvent.chunk (some c)]) st i).events =
          pre ++ [GEvent.finished r c.usageMetadata] ∧
        ∀ e ∈ pre, isTerminal e = false := by
  intro init
  induction init with
  | nil =>
    intro st i _
    simp only [List.nil_append, runLoop]
    have hproc := processChunkMain_finish_shape st c r hfin
    obtain ⟨pre, hpre, hmem⟩ := hproc
    refine ⟨pre, ?_, hmem⟩
    simp [processChunk, hth, hpre]
  | cons ev rest ih =>
    intro st i hall
    have hev : yieldsFinish ev = false := hall ev (List.mem_cons_self ev rest)
    have hrest : ∀ e ∈ rest, yieldsFinish e = false :=
      fun e he => hall e (List.mem_cons_of_mem ev he)
    simp only [List.cons_append, runLoop]
    cases ev with
    | retry =>
      obtain ⟨pre, hpre, hmem⟩ := ih st (i + 1) hrest
      exact ⟨GEvent.retry :: pre, by simp [hpre], by
        intro e he
        rcases List.mem_cons.mp he with rfl | he
        · rfl
        · exact hmem e he⟩
    | chunk oc =>
      cases oc with
      | none => exact ih st (i + 1) hrest
      | some c' =>
        obtain ⟨pre, hpre, hmem⟩ := ih (processChunk st c').2 (i + 1) hrest
        refine ⟨(processChunk st c').1 ++ pre, by simp [hpre], ?_⟩
        intro e he
        rcases List.mem_append.mp he with he | he
        · exact mem_processChunk_no_finish st c' hev e he
        · exact hmem e he

/-- **C2 counterexample.** A stream of two chunks, each carrying a finish
reason, makes `run` yield two Finished events: the loop does not return after
yielding Finished, so a run can contain more than one terminal event, and a
terminal event need not be last. -/
theorem c2_counterexample :
    (LiteTurnRun (fun _ => false)
        (.ok ⟨[GStreamEvent.chunk (some { finishReason := some "STOP" }),
               GStreamEvent.chunk (some { finishReason := some "STOP" })], none⟩)).events =
      [GEvent.finished "STOP" none, GEvent.finished "STOP" none] ∧
    ((LiteTurnRun (fun _ => false)
        (.ok ⟨[GStreamEvent.chunk (some { finishReason := some "STOP" }),
               GStreamEvent.chunk (some { finishReason := some "STOP" })], none⟩)).events.filter
        isTerminal).length = 2 := by
  decide

/-- **C2 (amended).** For a chunk sequence in which only the final chunk
carries a finish reason (and that chunk is not thought-flagged), consumed
without exception and with the cancellation signal never raised, the run
yields exactly one terminal event, it is a Finished event, and it is the last
event of the run. -/
theorem c2_amended (init : List GStreamEvent) (c : GChunk) (r : String)
    (hinit : ∀ ev ∈ init, yieldsFinish ev = false)
    (hth : isThoughtChunk c = false) (hfin : c.finishReason = some r) :
    ((LiteTurnRun (fun _ => false)
        (.ok ⟨init ++ [GStreamEvent.chunk (some c)], none⟩)).events.filter isTerminal).length = 1 ∧
    (LiteTurnRun (fun _ => false)
        (.ok ⟨init ++ [GStreamEvent.chunk (some c)], none⟩)).events.getLast? =
      some (GEvent.finished r c.usageMetadata) ∧
    ((LiteTurnRun (fun _ => false)
        (.ok ⟨init ++ [GStreamEvent.chunk (some c)], none⟩)).events.dropLast.filter
        isTerminal) = [] := by
  obtain ⟨pre, hpre, hmem⟩ :=
    runLoop_finish_last c r hth hfin init {} 0 hinit
  have hev : (LiteTurnRun (fun _ => false)
      (.ok ⟨init ++ [GStreamEvent.chunk (some c)], none⟩)).events =
      pre ++ [GEvent.finished r c.usageMetadata] := by
    simp only [LiteTurnRun]
    exact hpre
  rw [hev]
  have hfilter : pre.filter isTerminal = [] :=
    List.filter_eq_nil_iff.mpr (fun a ha => by simp [hmem a ha])
  refine ⟨?_, ?_, ?_⟩
  · rw [List.filter_append, hfilter]
    rfl
  · exact List.getLast?_concat pre
  · rw [List.dropLast_concat]
    exact hfilter

/-- Witness for `c2_amended`: a retry marker, a null chunk and a content chunk
followed by a finish chunk. -/
theorem c2_amended_witness :
    ((LiteTurnRun (fun _ => false)
        (.ok ⟨[GStreamEvent.retry, GStreamEvent.chunk none,
               GStreamEvent.chunk (some { parts := some [{ text := some "hi" }] })] ++
              [GStreamEvent.chunk (some { finishReason := some "STOP",
                                          usageMetadata := some 5 })],
              none⟩)).events.filter isTerminal).length = 1 ∧
    (LiteTurnRun (fun _ => false)
        (.ok ⟨[GStreamEvent.retry, GStreamEvent.chunk none,
               GStreamEvent.chunk (some { parts := some [{ text := some "hi" }] })] ++
              [GStreamEvent.chunk (some { finishReason := some "STOP",
                                          usageMetadata := some 5 })],
              none⟩)).events.getLast? = some (GEvent.finished "STOP" (some 5)) ∧
    ((LiteTurnRun (fun _ => false)
        (.ok ⟨[GStreamEvent.retry, GStreamEvent.chunk none,
               GStreamEvent.chunk (some { parts := some [{ text := some "hi" }] })] ++
              [GStreamEvent.chunk (some { finishReason := some "STOP",
                                          usageMetadata := some 5 })],
              none⟩)).events.dropLast.filter isTerminal) = [] :=
  c2_amended
    [GStreamEvent.retry, GStreamEvent.chunk none,
     GStreamEvent.chunk (some { parts := some [{ text := some "hi" }] })]
    { finishReason := some "STOP", usageMetadata := some 5 } "STOP"
    (by decide) (by decide) rfl

/-! ## C9 -/

theorem parseThoughtSummary_eq_find (text : String) :
    parseThoughtSummary text =
      ((((splitCharOn '\n' text.data).map String.mk).find? (fun line => jsTrim line != "")).getD
        ⟨text.data.take 100⟩) := by
  unfold parseThoughtSummary
  generalize (splitCharOn '\n' text.data).map String.mk = lines
  induction lines with
  | nil => rfl
  | cons a as ih =>
    cases h : (jsTrim a != "") <;>
      simp [List.filter_cons, List.find?, h] <;> simpa [h] using ih

/-- **C9.** When a chunk's first part carries the thought flag, processing
that chunk yields exactly one Thought event — with summary the first line that
is non-empty after trimming, or the first 100 characters when there is none —
and nothing else: the turn state is unchanged, so text in other parts,
function calls, citations and a finish reason carried by the same chunk are
silently dropped. -/
theorem c9_thought_chunk (st : TurnState) (c : GChunk) (p : GPart) (ps : List GPart)
    (hparts : c.parts = some (p :: ps)) (hth : p.thoughtFlag = true) :
    processChunk st c =
      ([GEvent.thought (p.text.getD "")
          ((((splitCharOn '\n' (p.text.getD "").data).map String.mk).find?
              (fun line => jsTrim line != "")).getD ⟨(p.text.getD "").data.take 100⟩)], st) := by
  have ht : isThoughtChunk c = true := by simp [isThoughtChunk, hparts, hth]
  have hf : firstPartText c = p.text.getD "" := by simp [firstPartText, hparts]
  simp [processChunk, ht, hf, parseThoughtSummary_eq_find]

/-- Witness for `c9_thought_chunk` on a chunk that also carries droppable
text, a function call, a citation and a finish reason. -/
theorem c9_thought_chunk_witness :
    processChunk {} fixtureThoughtChunk =
      ([GEvent.thought "  \nFirst line\nmore" "First line"], {}) :=
  (c9_thought_chunk {} fixtureThoughtChunk
      { thoughtFlag := true, text := some "  \nFirst line\nmore" }
      [{ text := some "dropped" }] rfl rfl).trans (by decide)

/-! ## C7 -/

theorem addCitation_nodup (set : List String) (s : String) (h : set.Nodup) :
    (addCitation set s).Nodup := by
  unfold addCitation
  split
  · exact h
  · next hc =>
    rw [List.nodup_append]
    refine ⟨h, List.nodup_singleton s, ?_⟩
    intro a ha hmem
    rcases List.mem_singleton.mp hmem with rfl
    exact hc (by simpa [List.contains] using List.elem_iff.mpr ha)

theorem addCitations_nodup (l : List String) (set : List String) (h : set.Nodup) :
    (addCitations set l).Nodup := by
  induction l generalizing set with
  | nil => exact h
  | cons a as ih => exact ih (addCitation set a) (addCitation_nodup set a h)

theorem processFunctionCalls_pendingCitations (fcs : List GFunctionCall) (st : TurnState) :
    (processFunctionCalls st fcs).2.pendingCitations = st.pendingCitations := by
  induction fcs generalizing st with
  | nil => rfl
  | cons fc rest ih => simpa [processFunctionCalls] using ih _

theorem handleThrown_not_citation (b : Bool) (t : GThrown) :
    isCitationEvent (handleThrown b t) = false := by
  cases b <;> cases t <;> rfl

theorem lexLeb_total (as bs : List Char) : lexLeb as bs = true ∨ lexLeb bs as = true := by
  induction as generalizing bs with
  | nil => exact Or.inl rfl
  | cons a as ih =>
    cases bs with
    | nil => exact Or.inr rfl
    | cons b bs =>
      simp only [lexLeb]
      rcases Nat.lt_trichotomy a.val.toNat b.val.toNat with h | h | h
      · left; rw [if_pos h]
      · rw [if_neg (by omega), if_neg (by omega), if_neg (by omega), if_neg (by omega)]
        exact ih bs
      · right; rw [if_pos h]

theorem lexLeb_trans (as bs cs : List Char) (h1 : lexLeb as bs = true)
    (h2 : lexLeb bs cs = true) : lexLeb as cs = true := by
  induction as generalizing bs cs with
  | nil => rfl
  | cons a as ih =>
    cases bs with
    | nil => simp [lexLeb] at h1
    | cons b bs =>
      cases cs with
      | nil => simp [lexLeb] at h2
      | cons c cs =>
        simp only [lexLeb] at h1 h2 ⊢
        rcases Nat.lt_trichotomy a.val.toNat b.val.toNat with hab | hab | hab
        · rcases Nat.lt_trichotomy b.val.toNat c.val.toNat with hbc | hbc | hbc
          · rw [if_pos (by omega)]
          · rw [if_pos (by omega)]
          · rw [if_neg (by omega), if_pos hbc] at h2; cases h2
        · rcases Nat.lt_trichotomy b.val.toNat c.val.toNat with hbc | hbc | hbc
          · rw [if_pos (by omega)]
          · rw [if_neg (by omega), if_neg (by omega)]
            rw [if_neg (by omega), if_neg (by omega)] at h1
            rw [if_neg (by omega), if_neg (by omega)] at h2
            exact ih bs cs h1 h2
          · rw [if_neg (by omega), if_pos hbc] at h2; cases h2
        · rw [if_neg (by omega), if_pos hab] at h1; cases h1

theorem strLeb_total (a b : String) : strLeb a b = true ∨ strLeb b a = true :=
  lexLeb_total a.data b.data

theorem strLeb_trans (a b c : String) (h1 : strLeb a b = true) (h2 : strLeb b c = true) :
    strLeb a c = true :=
  lexLeb_trans a.data b.data c.data h1 h2

theorem processChunk_not_thought (st : TurnState) (c : GChunk)
    (hth : isThoughtChunk c = false) :
    processChunk st c = processChunkMain st c := by
  simp [processChunk, hth]

theorem pendingAfter_eq (st : TurnState) (c : GChunk) :
    pendingAfter st c = addCitations st.pendingCitations (getCitations c) := by
  unfold pendingAfter
  rw [processFunctionCalls_pendingCitations]

theorem filter_citation_content_fn (st : TurnState) (c : GChunk) :
    (contentEventsOf c ++
      (processFunctionCalls st c.functionCalls).1).filter isCitationEvent = [] := by
  have h1 : (contentEventsOf c).filter isCitationEvent = [] :=
    List.filter_eq_nil_iff.mpr (fun a ha => by
      obtain ⟨t, rfl⟩ := mem_contentEventsOf c a ha
      simp [isCitationEvent])
  have h2 : ((processFunctionCalls st c.functionCalls).1).filter isCitationEvent = [] :=
    List.filter_eq_nil_iff.mpr (fun a ha => by
      obtain ⟨id, nm, rfl⟩ := processFunctionCalls_mem _ _ a ha
      simp [isCitationEvent])
  rw [List.filter_append, h1, h2]
  rfl

theorem processChunk_no_citations (st : TurnState) (c : GChunk)
    (hp : st.pendingCitations = [])
    (hc : chunkCollectedCitations (GStreamEvent.chunk (some c)) = []) :
    (processChunk st c).1.filter isCitationEvent = [] ∧
    (processChunk st c).2.pendingCitations = [] := by
  rcases ht : isThoughtChunk c with _ | _
  · have hcit : getCitations c = [] := by
      simpa [chunkCollectedCitations, ht] using hc
    have hpend : pendingAfter st c = [] := by
      rw [pendingAfter_eq, hp, hcit]
      rfl
    rw [processChunk_not_thought st c ht]
    cases hr : c.finishReason with
    | none =>
      simp only [processChunkMain, hr]
      exact ⟨filter_citation_content_fn st c, hpend⟩
    | some r =>
      simp only [processChunkMain, hr]
      rw [if_neg (by rw [hpend]; simp)]
      constructor
      · rw [List.filter_append, filter_citation_content_fn st c]
        rfl
      · exact hpend
  · have heq : processChunk st c =
        ([GEvent.thought (firstPartText c) (parseThoughtSummary (firstPartText c))], st) := by
      simp [processChunk, ht]
    rw [heq]
    exact ⟨rfl, hp⟩

theorem runLoop_no_citations (signal : Nat → Bool) (evs : List GStreamEvent) :
    ∀ (st : TurnState) (i : Nat), st.pendingCitations = [] →
      (∀ ev ∈ evs, chunkCollectedCitations ev = []) →
      (runLoop signal evs st i).events.filter isCitationEvent = [] ∧
      (runLoop signal evs st i).state.pendingCitations = [] := by
  induction evs with
  | nil => intro st i hp _; exact ⟨rfl, hp⟩
  | cons ev rest ih =>
    intro st i hp hall
    have hev := hall ev (List.mem_cons_self ev rest)
    have hrest : ∀ e ∈ rest, chunkCollectedCitations e = [] :=
      fun e he => hall e (List.mem_cons_of_mem ev he)
    simp only [runLoop]
    rcases hs : signal i with _ | _
    · rw [if_neg Bool.false_ne_true]
      cases ev with
      | retry =>
        obtain ⟨h1, h2⟩ := ih st (i + 1) hp hrest
        exact ⟨by simpa [List.filter_cons, isCitationEvent] using h1, h2⟩
      | chunk oc =>
        cases oc with
        | none => exact ih st (i + 1) hp hrest
        | some c =>
          obtain ⟨hc1, hc2⟩ := processChunk_no_citations st c hp hev
          obtain ⟨h1, h2⟩ := ih (processChunk st c).2 (i + 1) hc2 hrest
          exact ⟨by rw [List.filter_append, hc1, h1]; rfl, h2⟩
    · rw [if_pos rfl]
      exact ⟨rfl, hp⟩

/-- **C7.** When `run` processes a (non-thought) chunk carrying a finish
reason: if the pending-citation set together with the chunk's own citations is
non-empty, the chunk's events end with exactly one Citation event — carrying
the collected set, duplicate-free, sorted lexicographically — immediately
before the Finished event, and the pending set is cleared; if it is empty no
Citation event is emitted, and a run that collects no citations at all never
yields a Citation event. -/
theorem c7_citation_flush (st : TurnState) (c : GChunk) (r : String) (signal : Nat → Bool)
    (s : StreamResult)
    (hfin : c.finishReason = some r) (hth : isThoughtChunk c = false)
    (hnd : st.pendingCitations.Nodup)
    (hclean : ∀ ev ∈ s.events, chunkCollectedCitations ev = []) :
    (∀ pending, pending = addCitations st.pendingCitations (getCitations c) →
      (pending ≠ [] →
        (processChunk st c).1.getLast? = some (GEvent.finished r c.usageMetadata) ∧
        (processChunk st c).1.dropLast.getLast? =
          some (GEvent.citation (citationPayload pending)) ∧
        ((processChunk st c).1.filter isCitationEvent).length = 1 ∧
        (processChunk st c).2.pendingCitations = [] ∧
        pending.Nodup ∧ List.Sorted (fun a b => strLeb a b = true) (sortStrings pending) ∧
        (sortStrings pending).Perm pending) ∧
      (pending = [] → (processChunk st c).1.filter isCitationEvent = [])) ∧
    (LiteTurnRun signal (.ok s)).events.filter isCitationEvent = [] := by
  constructor
  · rintro pending rfl
    have hpa := pendingAfter_eq st c
    constructor
    · intro hne
      have hlen : 0 < (pendingAfter st c).length := by
        rw [hpa]
        exact List.length_pos.mpr hne
      have hev : (processChunk st c).1 =
          (contentEventsOf c ++ (processFunctionCalls st c.functionCalls).1 ++
            [GEvent.citation (citationPayload (pendingAfter st c))]) ++
          [GEvent.finished r c.usageMetadata] := by
        rw [processChunk_not_thought st c hth]
        simp only [processChunkMain, hfin]
        rw [if_pos hlen]
      have hst : (processChunk st c).2.pendingCitations = [] := by
        rw [processChunk_not_thought st c hth]
        simp only [processChunkMain, hfin]
        rw [if_pos hlen]
      refine ⟨?_, ?_, ?_, hst, ?_, ?_, ?_⟩
      · rw [hev]; exact List.getLast?_concat _
      · rw [hev, List.dropLast_concat, hpa]
        exact List.getLast?_concat _
      · rw [hev, List.filter_append, List.filter_append, filter_citation_content_fn st c]
        rfl
      · exact addCitations_nodup _ _ hnd
      · exact @List.sorted_insertionSort String (fun a b => strLeb a b = true) _
          ⟨fun a b => strLeb_total a b⟩ ⟨fun a b c => strLeb_trans a b c⟩ _
      · exact List.perm_insertionSort _ _
    · intro hemp
      have heq : chunkCollectedCitations (GStreamEvent.chunk (some c)) = getCitations c := by
        simp [chunkCollectedCitations, hth]
      have hsub : ∀ (l : List String) (set : List String) (a : String), a ∈ set →
          a ∈ addCitations set l := by
        intro l
        induction l with
        | nil => exact fun set a h => h
        | cons x xs ih =>
          intro set a h
          refine ih _ a ?_
          unfold addCitation
          split
          · exact h
          · exact List.mem_append_left _ h
      have hp0 : st.pendingCitations = [] := by
        rcases hq : st.pendingCitations with _ | ⟨a, as⟩
        · rfl
        · exfalso
          have ha : a ∈ addCitations st.pendingCitations (getCitations c) := by
            apply hsub
            rw [hq]
            exact List.mem_cons_self a as
          rw [hemp] at ha
          exact List.not_mem_nil a ha
      have hc0 : getCitations c = [] := by
        rcases hg : getCitations c with _ | ⟨a, as⟩
        · rfl
        · exfalso
          have ha : a ∈ addCitations st.pendingCitations (getCitations c) := by
            rw [hg, hp0]
            have hmem : a ∈ addCitation ([] : List String) a := by simp [addCitation]
            exact hsub as _ a hmem
          rw [hemp] at ha
          exact List.not_mem_nil a ha
      exact (processChunk_no_citations st c hp0 (by rw [heq, hc0])).1
  · rcases s with ⟨evs, th⟩
    obtain ⟨h1, _⟩ := runLoop_no_citations signal evs {} 0 rfl hclean
    simp only [LiteTurnRun]
    cases th with
    | none => exact h1
    | some t =>
      rcases hcomp : (runLoop signal evs {} 0).completed with _ | _
      · simp only [hcomp]
        exact h1
      · simp only [hcomp]
        rw [List.filter_append, h1, List.filter_cons, handleThrown_not_citation]
        rfl

/-- Witness for `c7_citation_flush`: a pending citation plus a finish chunk
carrying one new and one duplicate source, and a citation-free stream. -/
theorem c7_citation_flush_witness :
    (processChunk fixtureCitationState fixtureCitationChunk).1.getLast? =
      some (GEvent.finished "STOP" none) ∧
    (processChunk fixtureCitationState fixtureCitationChunk).1.dropLast.getLast? =
      some (GEvent.citation "Citations:\n(A) https://a\nhttps://b") ∧
    ((processChunk fixtureCitationState fixtureCitationChunk).1.filter
        isCitationEvent).length = 1 ∧
    (processChunk fixtureCitationState fixtureCitationChunk).2.pendingCitations = [] ∧
    (LiteTurnRun (fun _ => false) (.ok fixtureCleanStream)).events.filter
      isCitationEvent = [] := by
  have h := c7_citation_flush fixtureCitationState fixtureCitationChunk "STOP"
    (fun _ => false) fixtureCleanStream rfl rfl (by decide) (by decide)
  have h1 := (h.1 _ rfl).1 (by decide)
  exact ⟨h1.1, h1.2.1.trans (by decide), h1.2.2.1, h1.2.2.2.1, h.2⟩

/-! ## C5 -/

theorem grepFilesLoop_abort (matcher : String → Option (Nat × Nat)) (maxResults : Nat) :
    ∀ (files : List GrepFile) (k i : Nat) (st : GrepScanState), i ≤ k →
      grepFilesLoop matcher (fun j => decide (k ≤ j)) maxResults files i st =
        grepFilesLoop matcher (fun _ => false) maxResults (files.take (k - i)) i st := by
  intro files
  induction files with
  | nil =>
    intro k i st _
    rw [List.take_nil]
    rfl
  | cons f rest ih =>
    intro k i st hik
    by_cases hk : k ≤ i
    · have : i = k := Nat.le_antisymm hik hk
      subst this
      rw [Nat.sub_self, List.take_zero]
      simp [grepFilesLoop]
    · have h1 : (decide (k ≤ i)) = false := by simp [hk]
      have hks : k - i = (k - (i + 1)) + 1 := by omega
      rw [hks, List.take_succ_cons]
      simp only [grepFilesLoop, h1]
      rw [if_neg Bool.false_ne_true, if_neg Bool.false_ne_true]
      split
      · rfl
      · cases hf : f.lines with
        | none => exact ih k (i + 1) st (by omega)
        | some lines => exact ih k (i + 1) _ (by omega)

theorem listSingleCollect_abort (showHidden : Bool) :
    ∀ (items : List DirItem) (k i : Nat), i ≤ k →
      listSingleCollect showHidden (fun j => decide (k ≤ j)) items i =
        listSingleCollect showHidden (fun _ => false) (items.take (k - i)) i := by
  intro items
  induction items with
  | nil =>
    intro k i _
    rw [List.take_nil]
    rfl
  | cons item rest ih =>
    intro k i hik
    by_cases hk : k ≤ i
    · have : i = k := Nat.le_antisymm hik hk
      subst this
      rw [Nat.sub_self, List.take_zero]
      simp [listSingleCollect]
    · have h1 : (decide (k ≤ i)) = false := by simp [hk]
      have hks : k - i = (k - (i + 1)) + 1 := by omega
      rw [hks, List.take_succ_cons]
      simp only [listSingleCollect, h1]
      rw [if_neg Bool.false_ne_true, if_neg Bool.false_ne_true]
      split
      · exact ih k (i + 1) (by omega)
      · split
        · exact ih k (i + 1) (by omega)
        · rw [ih k (i + 1) (by omega)]

/-- **C5 counterexample.** With the signal raised after the first file,
GrepTool stops scanning but returns a success-flagged result containing only
the matches found so far (one match, though a second exists in the corpus),
and ListDirectoryTool likewise returns a success result with the partial
entries — not a cancellation-flavored failure. -/
theorem c5_counterexample :
    grepExecute fixtureConfig todoCompile fixtureFiles (fun i => decide (1 ≤ i))
        [("pattern", JsVal.str "TODO")] =
      .ok { success := true, matchCount := 1, truncated := false, filesSearched := 1,
            filesWithMatches := 1,
            «matches» := [{ file := "a.txt", line := 1, content := "TODO",
                            matchStart := 0, matchEnd := 4 }] } ∧
    grepExecute fixtureConfig todoCompile fixtureFiles (fun _ => false)
        [("pattern", JsVal.str "TODO")] =
      .ok { success := true, matchCount := 2, truncated := false, filesSearched := 2,
            filesWithMatches := 2,
            «matches» := [{ file := "a.txt", line := 1, content := "TODO",
                            matchStart := 0, matchEnd := 4 },
                          { file := "b.txt", line := 1, content := "TODO",
                            matchStart := 0, matchEnd := 4 }] } ∧
    listDirectoryExecuteSingle fixtureItems false (fun i => decide (1 ≤ i)) =
      { success := true, entryCount := 1,
        entries := [{ name := "a.txt", type := "file", size := some 3 }] } :=
  ⟨rfl, rfl, rfl⟩

/-- **C5 (amended).** When the cancellation signal becomes raised from the
`k`-th loop iteration on, GrepTool and ListDirectoryTool stop scanning
promptly — the call behaves exactly as if the file/item list ended at the
abort point — but the result is the ordinary success result for the truncated
corpus, not a cancellation-flavored failure; only ReadFileTool (which checks
the signal before its read) returns a cancellation failure result. -/
theorem c5_amended :
    (∀ (cfg : ToolConfig) (compile : String → Bool → Option (String → Option (Nat × Nat)))
        (files : List GrepFile) (params : List (String × JsVal)) (k : Nat),
      grepExecute cfg compile files (fun i => decide (k ≤ i)) params =
        grepExecute cfg compile (files.take k) (fun _ => false) params) ∧
    (∀ (items : List DirItem) (showHidden : Bool) (k : Nat),
      listDirectoryExecuteSingle items showHidden (fun i => decide (k ≤ i)) =
        listDirectoryExecuteSingle (items.take k) showHidden (fun _ => false)) ∧
    (∀ content, readFileAfterValidation true content =
      { success := false, error := some "Operation cancelled", content := none }) := by
  refine ⟨?_, ?_, ?_⟩
  · intro cfg compile files params k
    cases hp : grepPrepare cfg compile params with
    | error e => simp [grepExecute, hp]
    | ok v =>
      obtain ⟨m, maxR, ig⟩ := v
      simp only [grepExecute, hp]
      have hab := grepFilesLoop_abort m maxR files k 0 {} (Nat.zero_le k)
      rw [Nat.sub_zero] at hab
      rw [hab]
  · intro items showHidden k
    have hab := listSingleCollect_abort showHidden items k 0 (Nat.zero_le k)
    rw [Nat.sub_zero] at hab
    unfold listDirectoryExecuteSingle listSingle
    rw [hab]
  · intro content
    rfl

/-! ## C6 -/

theorem grepLines_length (matcher : String → Option (Nat × Nat)) (file : String)
    (maxResults : Nat) :
    ∀ (ls : List String) (i : Nat) (acc : List GrepMatch), acc.length ≤ maxResults →
      (grepLines matcher file maxResults ls i acc).length =
        min maxResults (acc.length + (ls.filter (fun l => (matcher l).isSome)).length) := by
  intro ls
  induction ls with
  | nil =>
    intro i acc h
    simp only [grepLines, List.filter_nil, List.length_nil, Nat.add_zero]
    omega
  | cons l rest ih =>
    intro i acc h
    simp only [grepLines]
    by_cases hcap : acc.length ≥ maxResults
    · rw [if_pos hcap]
      omega
    · rw [if_neg hcap]
      cases hm : matcher l with
      | some p =>
        obtain ⟨idx, len⟩ := p
        rw [ih (i + 1) _ (by simp; omega)]
        rw [List.filter_cons, if_pos (by simp [hm])]
        simp only [List.length_append, List.length_cons, List.length_singleton,
          List.length_nil, Nat.zero_add]
        omega
      | none =>
        rw [ih (i + 1) acc (by omega)]
        rw [List.filter_cons, if_neg (by simp [hm])]

theorem grepFilesLoop_length_le (matcher : String → Option (Nat × Nat))
    (signal : Nat → Bool) (maxResults : Nat) :
    ∀ (files : List GrepFile) (i : Nat) (st : GrepScanState),
      st.«matches».length ≤ maxResults →
      (grepFilesLoop matcher signal maxResults files i st).«matches».length ≤ maxResults := by
  intro files
  induction files with
  | nil => intro i st h; exact h
  | cons f rest ih =>
    intro i st h
    simp only [grepFilesLoop]
    rcases hs : signal i with _ | _
    · rw [if_neg Bool.false_ne_true]
      split
      · exact h
      · cases hf : f.lines with
        | none => exact ih (i + 1) st h
        | some lines =>
          apply ih (i + 1)
          have := grepLines_length matcher f.name maxResults lines 0 st.«matches» h
          simp only [this]
          exact Nat.min_le_left _ _
    · rw [if_pos rfl]
      exact h

theorem grepFilesLoop_noabort (matcher : String → Option (Nat × Nat)) (maxResults : Nat) :
    ∀ (files : List GrepFile) (i : Nat) (st : GrepScanState),
      st.«matches».length ≤ maxResults →
      (grepFilesLoop matcher (fun _ => false) maxResults files i st).«matches».length =
        min maxResults (st.«matches».length + grepAvailable matcher files) := by
  intro files
  induction files with
  | nil =>
    intro i st h
    simp only [grepFilesLoop, grepAvailable, List.map_nil, List.sum_nil, Nat.add_zero]
    omega
  | cons f rest ih =>
    intro i st h
    simp only [grepFilesLoop]
    rw [if_neg Bool.false_ne_true]
    simp only [grepAvailable, List.map_cons, List.sum_cons] at *
    by_cases hcap : st.«matches».length ≥ maxResults
    · rw [if_pos hcap]
      omega
    · rw [if_neg hcap]
      cases hf : f.lines with
      | none =>
        have hfa : grepFileAvailable matcher f = 0 := by simp [grepFileAvailable, hf]
        rw [ih (i + 1) st h, hfa]
        omega
      | some lines =>
        have hfa : grepFileAvailable matcher f =
            (lines.filter (fun l => (matcher l).isSome)).length := by
          simp [grepFileAvailable, hf]
        have hnew := grepLines_length matcher f.name maxResults lines 0 st.«matches» h
        rw [ih (i + 1) _ (by simp only [hnew]; exact Nat.min_le_left _ _), hfa]
        simp only [hnew]
        omega

theorem globPrepare_ok (cfg : ToolConfig) (params : List (String × JsVal))
    (m : Nat) (ig : List String) (h : globPrepare cfg params = .ok (m, ig)) :
    m = parseMaxResults params 100 := by
  cases hpat : getPattern params with
  | error e => rw [globPrepare, hpat] at h; cases h
  | ok pat =>
    simp only [globPrepare, hpat] at h
    cases hsp : spreadIgnorePatterns cfg with
    | error e => rw [hsp] at h; cases h
    | ok base =>
      rw [hsp] at h
      injection h with h2
      exact (congrArg Prod.fst h2).symm

theorem grepPrepare_ok (cfg : ToolConfig)
    (compile : String → Bool → Option (String → Option (Nat × Nat)))
    (params : List (String × JsVal)) (matcher : String → Option (Nat × Nat))
    (maxResults : Nat) (ig : List String)
    (h : grepPrepare cfg compile params = .ok (matcher, maxResults, ig)) :
    maxResults = parseMaxResults params 50 := by
  cases hpat : getPattern params with
  | error e => rw [grepPrepare, hpat] at h; cases h
  | ok pat =>
    simp only [grepPrepare, hpat] at h
    cases hc : compile pat (lookupParam params "caseSensitive" == some (JsVal.boolean true)) with
    | none => rw [hc] at h; cases h
    | some regex =>
      rw [hc] at h
      cases hsp : spreadIgnorePatterns cfg with
      | error e => rw [hsp] at h; cases h
      | ok base =>
        rw [hsp] at h
        injection h with h2
        exact (congrArg (fun p => p.2.1) h2).symm

theorem wrapToolCatch_error_ne_ok {α : Type} (t : String) (e : ThrownError) (r : α) :
    wrapToolCatch t (Except.error e : Except ThrownError α) ≠ Except.ok r := by
  cases e <;> simp [wrapToolCatch]

/-- **C6 counterexample.** A grep call interrupted by cancellation violates
the truncated-flag law as originally claimed: with a cap of 2 and a corpus
holding 3 matching lines, a scan aborted after the first file returns one
match with `truncated = false`, although the available matches exceed the
configured maximum. -/
theorem c6_counterexample :
    grepExecute fixtureConfig todoCompile fixtureThreeFiles (fun i => decide (1 ≤ i))
        [("pattern", JsVal.str "TODO"), ("maxResults", JsVal.num 2)] =
      .ok { success := true, matchCount := 1, truncated := false, filesSearched := 1,
            filesWithMatches := 1,
            «matches» := [{ file := "a.txt", line := 1, content := "TODO",
                            matchStart := 0, matchEnd := 4 }] } ∧
    grepAvailable todoMatcher fixtureThreeFiles = 3 ∧
    parseMaxResults [("pattern", JsVal.str "TODO"), ("maxResults", JsVal.num 2)] 50 = 2 :=
  ⟨rfl, rfl, rfl⟩

/-- **C6 (amended).** The number of items a glob or grep call returns never
exceeds the configured maximum, for every call (glob unconditionally, grep
under any signal); glob flags `truncated` whenever more matches were
available; and grep, for every call not interrupted by cancellation, flags
`truncated` whenever the corpus holds more matching lines than the maximum —
a cancelled grep scan can return fewer with the flag unset. -/
theorem c6_truncation :
    (∀ (cfg : ToolConfig) (params : List (String × JsVal)) (globMatches : List String)
        (r : GlobResult),
      globExecute cfg globMatches params = .ok r →
        r.returnedCount ≤ parseMaxResults params 100 ∧
        r.«matches».length ≤ parseMaxResults params 100 ∧
        (globMatches.length > parseMaxResults params 100 → r.truncated = true)) ∧
    (∀ (cfg : ToolConfig)
        (compile : String → Bool → Option (String → Option (Nat × Nat)))
        (fsFiles : List GrepFile) (params : List (String × JsVal))
        (matcher : String → Option (Nat × Nat)) (maxResults : Nat) (ignores : List String)
        (signal : Nat → Bool),
      grepPrepare cfg compile params = .ok (matcher, maxResults, ignores) →
        maxResults = parseMaxResults params 50 ∧
        grepExecute cfg compile fsFiles signal params =
          .ok (grepSuccessResult (grepFilesLoop matcher signal maxResults fsFiles 0 {})
                maxResults) ∧
        (grepFilesLoop matcher signal maxResults fsFiles 0 {}).«matches».length ≤
          maxResults ∧
        (grepAvailable matcher fsFiles > maxResults →
          (grepSuccessResult (grepFilesLoop matcher (fun _ => false) maxResults fsFiles 0 {})
              maxResults).truncated = true)) := by
  constructor
  · intro cfg params globMatches r h
    unfold globExecute at h
    split at h
    · exact absurd h (wrapToolCatch_error_ne_ok _ _ _)
    · next m ig heq =>
      simp only [wrapToolCatch] at h
      injection h with h2
      subst h2
      have hm := globPrepare_ok cfg params m ig heq
      subst hm
      refine ⟨?_, ?_, ?_⟩
      · exact List.length_take_le _ _
      · exact List.length_take_le _ _
      · intro hgt
        simp [hgt]
  · intro cfg compile fsFiles params matcher maxResults ignores signal h
    refine ⟨grepPrepare_ok cfg compile params matcher maxResults ignores h, ?_, ?_, ?_⟩
    · simp [grepExecute, h, wrapToolCatch]
    · exact grepFilesLoop_length_le matcher signal maxResults fsFiles 0 {} (Nat.zero_le _)
    · intro hgt
      have hlen := grepFilesLoop_noabort matcher maxResults fsFiles 0 {} (Nat.zero_le _)
      simp only [grepSuccessResult, hlen]
      simp only [decide_eq_true_eq, ge_iff_le]
      omega

/-- Witness for `c6_truncation`: a glob call capped at 2 of 3 matches, and a
grep call over the two-file fixture with the default cap. -/
theorem c6_truncation_witness :
    (({ success := true, matchCount := 3, returnedCount := 2, truncated := true,
        «matches» := ["a.ts", "b.ts"] } : GlobResult).returnedCount ≤
      parseMaxResults [("pattern", JsVal.str "*"), ("maxResults", JsVal.num 2)] 100 ∧
     ({ success := true, matchCount := 3, returnedCount := 2, truncated := true,
        «matches» := ["a.ts", "b.ts"] } : GlobResult).«matches».length ≤
      parseMaxResults [("pattern", JsVal.str "*"), ("maxResults", JsVal.num 2)] 100 ∧
     ((["a.ts", "b.ts", "c.ts"] : List String).length >
        parseMaxResults [("pattern", JsVal.str "*"), ("maxResults", JsVal.num 2)] 100 →
      ({ success := true, matchCount := 3, returnedCount := 2, truncated := true,
         «matches» := ["a.ts", "b.ts"] } : GlobResult).truncated = true)) ∧
    ((50 : Nat) = parseMaxResults [("pattern", JsVal.str "TODO")] 50 ∧
     grepExecute fixtureConfig todoCompile fixtureFiles (fun _ => false)
         [("pattern", JsVal.str "TODO")] =
       .ok (grepSuccessResult
             (grepFilesLoop todoMatcher (fun _ => false) 50 fixtureFiles 0 {}) 50) ∧
     (grepFilesLoop todoMatcher (fun _ => false) 50 fixtureFiles 0 {}).«matches».length ≤
       50 ∧
     (grepAvailable todoMatcher fixtureFiles > 50 →
      (grepSuccessResult (grepFilesLoop todoMatcher (fun _ => false) 50 fixtureFiles 0 {})
          50).truncated = true)) := by
  constructor
  · exact c6_truncation.1 fixtureConfig
      [("pattern", JsVal.str "*"), ("maxResults", JsVal.num 2)] ["a.ts", "b.ts", "c.ts"]
      { success := true, matchCount := 3, returnedCount := 2, truncated := true,
        «matches» := ["a.ts", "b.ts"] } rfl
  · exact c6_truncation.2 fixtureConfig todoCompile fixtureFiles
      [("pattern", JsVal.str "TODO")] todoMatcher 50
      ([] ++ ["**/node_modules/**", "**/.git/**", "**/dist/**", "**/build/**", "**/.next/**",
       "**/*.min.js", "**/*.map", "**/*.lock", "**/package-lock.json", "**/yarn.lock"])
      (fun _ => false) rfl

/-! ## C10 -/

theorem wrapToolCatch_error_isThrown {α : Type} (t : String) (e : ThrownError) :
    isThrown (wrapToolCatch t (Except.error e : Except ThrownError α)) = true := by
  cases e <;> rfl

/-- **C10.** When the tool configuration's optional `ignorePatterns` field is
absent, every call to GrepTool's or GlobTool's `execute` fails — the
unconditional spread of `config.ignorePatterns` (or an earlier argument check)
throws — and it does so before the `glob` call, i.e. before any file-system
access: the prepare stage already fails, and the outcome does not depend on
the file-system oracle. -/
theorem c10_undefined_ignore_patterns (cfg : ToolConfig) (h : cfg.ignorePatterns = none) :
    (∀ (compile : String → Bool → Option (String → Option (Nat × Nat)))
        (params : List (String × JsVal)),
      isThrown (grepPrepare cfg compile params) = true) ∧
    (∀ (compile : String → Bool → Option (String → Option (Nat × Nat)))
        (params : List (String × JsVal)) (fsFiles : List GrepFile) (signal : Nat → Bool),
      isThrown (grepExecute cfg compile fsFiles signal params) = true) ∧
    (∀ params, isThrown (globPrepare cfg params) = true) ∧
    (∀ (params : List (String × JsVal)) (globMatches : List String),
      isThrown (globExecute cfg globMatches params) = true) := by
  have hspread : spreadIgnorePatterns cfg =
      .error (.typeError "config.ignorePatterns is not iterable") := by
    unfold spreadIgnorePatterns
    rw [h]
  have hgrep : ∀ (compile : String → Bool → Option (String → Option (Nat × Nat)))
      (params : List (String × JsVal)), isThrown (grepPrepare cfg compile params) = true := by
    intro compile params
    cases hpat : getPattern params with
    | error e => simp [grepPrepare, hpat, isThrown]
    | ok pat =>
      cases hc : compile pat (lookupParam params "caseSensitive" == some (.boolean true)) with
      | none => simp [grepPrepare, hpat, hc, isThrown]
      | some m => simp [grepPrepare, hpat, hc, hspread, isThrown]
  have hglob : ∀ params, isThrown (globPrepare cfg params) = true := by
    intro params
    cases hpat : getPattern params with
    | error e => simp [globPrepare, hpat, isThrown]
    | ok pat => simp [globPrepare, hpat, hspread, isThrown]
  refine ⟨hgrep, ?_, hglob, ?_⟩
  · intro compile params fsFiles signal
    cases hq : grepPrepare cfg compile params with
    | error e =>
      simp only [grepExecute, hq]
      exact wrapToolCatch_error_isThrown _ e
    | ok v =>
      have := hgrep compile params
      rw [hq] at this
      simp [isThrown] at this
  · intro params globMatches
    cases hq : globPrepare cfg params with
    | error e =>
      simp only [globExecute, hq]
      exact wrapToolCatch_error_isThrown _ e
    | ok v =>
      have := hglob params
      rw [hq] at this
      simp [isThrown] at this

/-- Witness for `c10_undefined_ignore_patterns`: a config that leaves
`ignorePatterns` at its absent default makes both tools' `execute` reject. -/
theorem c10_undefined_ignore_patterns_witness :
    ({ workspaceDir := "/repo" } : ToolConfig).ignorePatterns = none ∧
    isThrown (grepExecute { workspaceDir := "/repo" } todoCompile fixtureFiles
      (fun _ => false) [("pattern", JsVal.str "TODO")]) = true ∧
    isThrown (globExecute { workspaceDir := "/repo" } ["a.ts"]
      [("pattern", JsVal.str "*")]) = true :=
  ⟨rfl,
   (c10_undefined_ignore_patterns { workspaceDir := "/repo" } rfl).2.1 todoCompile
     [("pattern", JsVal.str "TODO")] fixtureFiles (fun _ => false),
   (c10_undefined_ignore_patterns { workspaceDir := "/repo" } rfl).2.2.2
     [("pattern", JsVal.str "*")] ["a.ts"]⟩

end GeminiLite
